import Mathlib

/-!
Shallow embedding of the diagnostic ingestion core of `bacon-ls`
(`src/bacon.rs`, `src/lib.rs`, `src/native.rs`), together with theorems
settling the specification claims about it.

Machine integers (`u32`) are modelled as `Nat` with explicit wrapping
modulo `2 ^ 32` where the Rust code can overflow.  External library
functions that the code calls (URL parsing from the `url`/`tower-lsp`
crates, the `ansi-regex` ANSI-escape stripper, `std::fs::canonicalize`,
`serde_json` line decoding) are passed in as explicit function
parameters, so every theorem quantifies over their behaviour.
-/

namespace BaconLsModel

/-- Constant `CARGO_PKG_NAME`, the fixed `source` tag put on every diagnostic. -/
def PKG_NAME : String := "bacon-ls"

/-- Rust `lsp_types::Position` (zero-based line/character). -/
structure Position where
  line : Nat
  character : Nat
deriving DecidableEq, Repr

/-- Rust `lsp_types::Range` (`Range::new(start, end)`). -/
structure Range where
  start : Position
  stop : Position
deriving DecidableEq, Repr

/-- Rust `lsp_types::DiagnosticSeverity` (the four constants used by the code). -/
inductive DiagnosticSeverity where
  | ERROR
  | WARNING
  | INFORMATION
  | HINT
deriving DecidableEq, Repr

/-- The `DiagnosticData` payload serialized into `Diagnostic.data`
(`lib.rs`): a list of correction strings. -/
structure DiagnosticData where
  corrections : List String
deriving DecidableEq, Repr

/-- Rust `lsp_types::Diagnostic`, restricted to the fields the code sets
(every other field is left at `Diagnostic::default()`). -/
structure Diagnostic where
  range : Range
  severity : Option DiagnosticSeverity
  source : Option String
  message : String
  data : Option DiagnosticData
deriving DecidableEq, Repr

/-- An `lsp_types::Url`: the raw URL string together with its `path()`
component, as produced by whatever URL parser the code links against. -/
structure Url where
  raw : String
  path : String
deriving DecidableEq, Repr

/-! ### String primitives

The Rust string operations used by the parser, implemented over
`List Char` (a `String` is its list of characters). -/

/-- Wrapping `u32` subtraction of 1 (`x - 1` in release Rust builds,
where overflow wraps modulo `2 ^ 32`). -/
def u32sub1 (x : Nat) : Nat := (x + 2 ^ 32 - 1) % 2 ^ 32

/-- Rust `str::starts_with`: does the second list start with the first
(the pattern)? -/
def startsWithL : List Char → List Char → Bool
  | [], _ => true
  | _ :: _, [] => false
  | p :: ps, c :: cs => p = c && startsWithL ps cs

/-- Split off everything before and after the first occurrence of the
separator `sep`, if it occurs (helper for `str::splitn`). -/
def splitFirst (sep : List Char) : List Char → Option (List Char × List Char)
  | [] => none
  | c :: rest =>
    if startsWithL sep (c :: rest) then some ([], (c :: rest).drop sep.length)
    else
      match splitFirst sep rest with
      | some (pre, post) => some (c :: pre, post)
      | none => none

/-- Rust `str::splitn(n, sep)`: split at the leftmost occurrences of `sep`
into at most `n` pieces; the final piece keeps any remaining
separators unsplit. -/
def splitnSep : Nat → List Char → List Char → List (List Char)
  | 0, _, _ => []
  | 1, _, s => [s]
  | n + 2, sep, s =>
    match splitFirst sep s with
    | none => [s]
    | some (pre, post) => pre :: splitnSep (n + 1) sep post

/-- Rust `str::replace` with the two-character pattern backslash-n and
replacement newline: rewrite every literal backslash-n sequence into a
real newline, left to right. -/
def unescapeNewlines : List Char → List Char
  | [] => []
  | '\\' :: 'n' :: rest => '\n' :: unescapeNewlines rest
  | c :: rest => c :: unescapeNewlines rest

/-- Rust `str::trim_end_matches('\n')`: remove every trailing newline. -/
def trimEndNl (s : List Char) : List Char :=
  (s.reverse.dropWhile (fun c => c = '\n')).reverse

/-- Rust `char::is_whitespace`, restricted to the ASCII range (the only
characters the claims and the diagnostics format exercise). -/
def isRustWhitespace (c : Char) : Bool :=
  c = ' ' || c = '\t' || c = '\n' || c = '\r' || c = '\x0b' || c = '\x0c'

/-- Rust `str::trim_end`: remove trailing whitespace. -/
def trimEnd (s : List Char) : List Char :=
  (s.reverse.dropWhile isRustWhitespace).reverse

/-- Accumulator pass of `str::split_whitespace`. -/
def splitWsAux : List Char → List Char → List (List Char)
  | [], cur => if cur.isEmpty then [] else [cur.reverse]
  | c :: r, cur =>
    if isRustWhitespace c then
      if cur.isEmpty then splitWsAux r [] else cur.reverse :: splitWsAux r []
    else splitWsAux r (c :: cur)

/-- Rust `str::split_whitespace`, collected to a list of strings. -/
def splitWhitespaceS (s : String) : List String :=
  (splitWsAux s.data []).map String.mk

/-- Rust `Path::join`, for Unix-style paths: an absolute right operand
replaces the base; otherwise the two are joined with a `/`. -/
def pathJoin (base p : String) : String :=
  if startsWithL "/".data p.data then p
  else if base.data.isEmpty then p
  else if base.data.getLast? = some '/' then base ++ p
  else base ++ "/" ++ p

/-- Rust `str::parse::<u32>()`: optional leading `+`, then only ASCII
digits, value below `2 ^ 32`; anything else is a parse error.  Note
that `"0"` parses successfully. -/
def parseU32 (s : String) : Option Nat :=
  let cs := if s.data.head? = some '+' then s.data.tail else s.data
  if cs.isEmpty then none
  else if cs.all Char.isDigit then
    let v := cs.foldl (fun a c => a * 10 + (c.toNat - 48)) 0
    if v < 2 ^ 32 then some v else none
  else none

/-! ### The file-tailing backend (`src/bacon.rs`, mirrored in `src/lib.rs`) -/

namespace Bacon

/-- Function `Bacon::parse_severity` (`src/bacon.rs:161-168`; the copy in
`src/lib.rs:359-366` is identical). -/
def parse_severity (severity_str : String) : DiagnosticSeverity :=
  match severity_str with
  | "warning" => .WARNING
  | "info" | "information" | "note" | "failure-note" => .INFORMATION
  | "hint" | "help" => .HINT
  | _ => .ERROR

/-- Function `Bacon::parse_positions` (`src/bacon.rs:170-176`): parse the four
position fields, in source order line_start, line_end, column_start,
column_end, each with `str::parse::<u32>()`. -/
def parse_positions (fields : List String) : Option (Nat × Nat × Nat × Nat) := do
  let line_start ← parseU32 (← fields.get? 0)
  let line_end ← parseU32 (← fields.get? 1)
  let column_start ← parseU32 (← fields.get? 2)
  let column_end ← parseU32 (← fields.get? 3)
  some (line_start, line_end, column_start, column_end)

/-- The literal field delimiter of the export format. -/
def delim : List Char := "|:|".data

/-- Function `Bacon::parse_bacon_diagnostic_line` (`src/bacon.rs:178-248`).
`urlParse` stands for `Url::parse` and `stripAnsi` for
`ansi_regex().replace_all(-, "")`; both are external library calls. -/
def parse_bacon_diagnostic_line (urlParse : String → Option Url)
    (stripAnsi : String → String) (line : String) (folder_path : String) :
    Option (Url × Diagnostic) :=
  let line_split := (splitnSep 9 delim line.data).map String.mk
  if line_split.length = 9 then
    let severity := parse_severity (line_split.getD 0 "")
    let file_path := pathJoin folder_path (line_split.getD 1 "")
    -- `parse_positions(&line_split[2..6])`
    match parse_positions
        [line_split.getD 2 "", line_split.getD 3 "",
         line_split.getD 4 "", line_split.getD 5 ""] with
    | none => none
    | some (line_start, line_end, column_start, column_end) =>
      match urlParse ("file://" ++ file_path) with
      | none => none
      | some path =>
        let message := String.mk (trimEndNl (unescapeNewlines (line_split.getD 6 "").data))
        let replacement := line_split.getD 8 ""
        let data : Option DiagnosticData :=
          if replacement ≠ "none" then some ⟨[replacement]⟩ else none
        let rendered_message := line_split.getD 7 ""
        let message :=
          if rendered_message ≠ "none" then
            String.mk (trimEndNl (stripAnsi rendered_message).data)
          else message
        some (path,
          { range := ⟨⟨u32sub1 line_start, u32sub1 column_start⟩,
                      ⟨u32sub1 line_end, u32sub1 column_end⟩⟩
            severity := some severity
            source := some PKG_NAME
            message := message
            data := data })
  else none

/-- Function `Bacon::deduplicate_diagnostics` (`src/bacon.rs:250-261`): push the
pair unless the record's document differs from the requested `uri`, or
an entry with the same document path, range, severity and message is
already present. -/
def deduplicate_diagnostics (path : Url) (uri : Url) (diagnostic : Diagnostic)
    (diagnostics : List (Url × Diagnostic)) : List (Url × Diagnostic) :=
  if path = uri ∧
      ¬ (diagnostics.any fun e =>
        e.1.path == path.path && diagnostic.range == e.2.range &&
          diagnostic.severity == e.2.severity && diagnostic.message == e.2.message)
  then diagnostics ++ [(path, diagnostic)]
  else diagnostics

/-- The severity-keyword test opening a new logical record in the
read loop (`src/bacon.rs:371-376`). -/
def isNewDiagnostic (trimmed : List Char) : Bool :=
  startsWithL "warning".data trimmed || startsWithL "error".data trimmed ||
    startsWithL "info".data trimmed || startsWithL "note".data trimmed ||
    startsWithL "failure-note".data trimmed || startsWithL "help".data trimmed

/-- The record-assembly loop of `Bacon::diagnostics`
(`src/bacon.rs:364-411`): walk the physical lines carrying the current
buffer, emitting the buffer as one logical record at each new-record
marker and flushing the final buffer at end of file.  Returns the
logical records handed to `parse_bacon_diagnostic_line`, in order. -/
def processLines : List (List Char) → List Char → List (List Char)
  | [], buffer => if buffer.isEmpty then [] else [buffer]
  | l :: rest, buffer =>
    let trimmed := trimEnd l
    let isNew := isNewDiagnostic trimmed
    let emitted := if isNew && !buffer.isEmpty then [buffer] else []
    let buffer := if isNew then [] else buffer
    let buffer := if buffer.isEmpty then trimmed else buffer ++ '\n' :: trimmed
    emitted ++ processLines rest buffer

/-- The logical records one export file's lines produce
(`src/bacon.rs:364-411`, starting from an empty buffer). -/
def assembleRecords (lines : List (List Char)) : List (List Char) :=
  processLines lines []

end Bacon

namespace BaconLs

/-- Function `BaconLs::deduplicate_diagnostics` (`src/lib.rs:254-270`): the
same push-unless-duplicate logic, but the requested document filter is
an `Option` and the guard is `Some(&path) == uri`. -/
def deduplicate_diagnostics (path : Url) (uri : Option Url) (diagnostic : Diagnostic)
    (diagnostics : List (Url × Diagnostic)) : List (Url × Diagnostic) :=
  if some path = uri ∧
      ¬ (diagnostics.any fun e =>
        e.1.path == path.path && diagnostic.range == e.2.range &&
          diagnostic.severity == e.2.severity && diagnostic.message == e.2.message)
  then diagnostics ++ [(path, diagnostic)]
  else diagnostics

/-- One export file's portion of `BaconLs::diagnostics`
(`src/lib.rs:154-207`): assemble the file's physical lines into logical
records, parse each record, and feed every parsed record through
`deduplicate_diagnostics` with the document filter `uri`, in order,
extending the accumulated list `acc`. -/
def readPassFrom (urlParse : String → Option Url) (stripAnsi : String → String)
    (uri : Option Url) (folder_path : String) (lines : List (List Char))
    (acc : List (Url × Diagnostic)) : List (Url × Diagnostic) :=
  (Bacon.assembleRecords lines).foldl
    (fun diagnostics rec =>
      match Bacon.parse_bacon_diagnostic_line urlParse stripAnsi (String.mk rec) folder_path with
      | some (path, diagnostic) => deduplicate_diagnostics path uri diagnostic diagnostics
      | none => diagnostics)
    acc

/-- The diagnostics-read pass over one export file, starting from no
accumulated diagnostics. -/
def readPass (urlParse : String → Option Url) (stripAnsi : String → String)
    (uri : Option Url) (folder_path : String) (lines : List (List Char)) :
    List (Url × Diagnostic) :=
  readPassFrom urlParse stripAnsi uri folder_path lines []

end BaconLs

/-! ### The compiler-JSON backend (`src/native.rs`) -/

namespace Cargo

/-- One deserialized `CargoSpan` (`src/native.rs:29-38`).  The
`file_name` field of the Rust struct is a `Uri` produced while
deserializing; here it is kept as its authority host (`none` when the
URI has no authority) and its path component. -/
structure CargoSpan where
  host : Option String
  path : String
  line_start : Nat
  line_end : Nat
  column_start : Nat
  column_end : Nat
  suggested_replacement : Option String
deriving DecidableEq, Repr

/-- One deserialized `CargoChildren` (`src/native.rs:48-53`). -/
structure CargoChildren where
  message : String
  level : String
  spans : List CargoSpan
deriving DecidableEq, Repr

/-- One deserialized `CargoMessage` (`src/native.rs:55-63`). -/
structure CargoMessage where
  message_type : String
  rendered : String
  level : String
  spans : List CargoSpan
  children : List CargoChildren
deriving DecidableEq, Repr

/-- Function `Cargo::parse_severity` (`src/native.rs:74-81`).  Unlike the
file-tailing backend it sends `failure-note` to `WARNING`. -/
def parse_severity (severity_str : String) : DiagnosticSeverity :=
  match severity_str with
  | "warning" | "failure-note" => .WARNING
  | "info" | "information" | "note" => .INFORMATION
  | "hint" | "help" => .HINT
  | _ => .ERROR

/-- Rust `str::replacen(pat, "", 1)` for the pattern `/`: drop the first
slash of the string, if any (`src/native.rs:107`). -/
def removeFirstSlash : List Char → List Char
  | [] => []
  | '/' :: rest => rest
  | c :: rest => c :: removeFirstSlash rest

/-- The filesystem path built for a span before canonicalization
(`src/native.rs:101-108`): the span's own path when the URI host is
empty (absolute path), else the current directory joined with the host
and the path with its leading slash removed. -/
def span_uri (current_dir : String) (host : String) (span : CargoSpan) : String :=
  if host = "" then span.path
  else pathJoin (pathJoin current_dir host) (String.mk (removeFirstSlash span.path.data))

/-- The association-list stand-in for the
`HashMap<Uri, Vec<Diagnostic>>` accumulator. -/
abbrev DiagnosticsMap := List (Url × List Diagnostic)

/-- Rust `HashMap::entry(k).or_default()` read side: the current vector
for a key. -/
def mapGetD (m : DiagnosticsMap) (k : Url) : List Diagnostic :=
  match m.find? (fun e => e.1 == k) with
  | some e => e.2
  | none => []

/-- Rust `HashMap` write side: replace (or insert) the vector for a key. -/
def mapSet (m : DiagnosticsMap) (k : Url) (v : List Diagnostic) : DiagnosticsMap :=
  if m.any (fun e => e.1 == k) then
    m.map (fun e => if e.1 == k then (k, v) else e)
  else m ++ [(k, v)]

/-- The duplicate test of `Cargo::maybe_add_diagnostic`
(`src/native.rs:133-140`): push unless an entry with equal range,
severity and message is already in the document's vector. -/
def add_deduped (cur : List Diagnostic) (diagnostic : Diagnostic) : List Diagnostic :=
  if cur.any (fun e =>
      diagnostic.range == e.range && diagnostic.severity == e.severity &&
        diagnostic.message == e.message)
  then cur
  else cur ++ [diagnostic]

/-- Function `Cargo::maybe_add_diagnostic` (`src/native.rs:83-144`).
`canon` stands for `std::fs::canonicalize` (`none` meaning the OS call
failed) and `uriParse` for `str::parse::<Uri>`; a failure of either is
propagated as an error with the same context text the code attaches. -/
def maybe_add_diagnostic (canon : String → Option String) (uriParse : String → Option Url)
    (current_dir : String) (severity : String) (message : String) (span : CargoSpan)
    (diagnostics : DiagnosticsMap) : Except String DiagnosticsMap :=
  match span.host with
  | none => .ok diagnostics
  | some host =>
    let data : Option DiagnosticData :=
      span.suggested_replacement.map (fun replacement => ⟨[replacement]⟩)
    let uri := span_uri current_dir host span
    match canon uri with
    | none => .error ("canonicalizing uri: " ++ uri)
    | some file_name =>
      match uriParse ("file://" ++ file_name) with
      | none => .error "parsing filename"
      | some url =>
        let cur := mapGetD diagnostics url
        let diagnostic : Diagnostic :=
          { range := ⟨⟨u32sub1 span.line_start, u32sub1 span.column_start⟩,
                      ⟨u32sub1 span.line_end, u32sub1 span.column_end⟩⟩
            severity := some (parse_severity severity)
            source := some PKG_NAME
            message := message
            data := data }
        .ok (mapSet diagnostics url (add_deduped cur diagnostic))

/-- The per-span loop of `Cargo::cargo_diagnostics`
(`src/native.rs:183-194` and `197-206`): each `maybe_add_diagnostic`
error is wrapped with the given context text and aborts the loop via
the `?` operator. -/
def addSpans (canon : String → Option String) (uriParse : String → Option Url)
    (current_dir : String) (ctx : String) (severity : String) (message : String) :
    List CargoSpan → DiagnosticsMap → Except String DiagnosticsMap
  | [], m => .ok m
  | span :: rest, m =>
    match maybe_add_diagnostic canon uriParse current_dir severity message span m with
    | .error e => .error (ctx ++ ": " ++ e)
    | .ok m' => addSpans canon uriParse current_dir ctx severity message rest m'

/-- The per-child loop of `Cargo::cargo_diagnostics`
(`src/native.rs:196-207`). -/
def addChildrenSpans (canon : String → Option String) (uriParse : String → Option Url)
    (current_dir : String) : List CargoChildren → DiagnosticsMap →
    Except String DiagnosticsMap
  | [], m => .ok m
  | child :: rest, m =>
    match addSpans canon uriParse current_dir "adding child spans" child.level child.message
        child.spans m with
    | .error e => .error e
    | .ok m' => addChildrenSpans canon uriParse current_dir rest m'

/-- The stdout-processing loop of `Cargo::cargo_diagnostics`
(`src/native.rs:173-214`).  One stdout line is modelled after
`serde_json` decoding: `none` is a line that failed to decode (logged
and skipped), `some none` decoded with no `message` payload, and
`some (some msg)` carries a `CargoMessage`.  Only messages whose
`message_type` is `diagnostic` are processed; any error from a span is
propagated, aborting the whole run. -/
def processStdout (canon : String → Option String) (uriParse : String → Option Url)
    (stripAnsi : String → String) (current_dir : String) :
    List (Option (Option CargoMessage)) → DiagnosticsMap → Except String DiagnosticsMap
  | [], m => .ok m
  | line :: rest, m =>
    match line with
    | none => processStdout canon uriParse stripAnsi current_dir rest m
    | some none => processStdout canon uriParse stripAnsi current_dir rest m
    | some (some message) =>
      if message.message_type = "diagnostic" then
        match addSpans canon uriParse current_dir "adding spans" message.level
            (String.mk (trimEndNl (stripAnsi message.rendered).data)) message.spans m with
        | .error e => .error e
        | .ok m1 =>
          match addChildrenSpans canon uriParse current_dir message.children m1 with
          | .error e => .error e
          | .ok m2 => processStdout canon uriParse stripAnsi current_dir rest m2
      else processStdout canon uriParse stripAnsi current_dir rest m

/-- Function `Cargo::cargo_diagnostics` (`src/native.rs:146-226`),
restricted to its diagnostic-producing part: process the decoded
stdout lines starting from an empty map. -/
def cargo_diagnostics (canon : String → Option String) (uriParse : String → Option Url)
    (stripAnsi : String → String) (current_dir : String)
    (stdout : List (Option (Option CargoMessage))) : Except String DiagnosticsMap :=
  processStdout canon uriParse stripAnsi current_dir stdout []

/-- The argument vector `args` that `Cargo::cargo_diagnostics` builds
and logs (`src/native.rs:151-155`): the configured arguments split on
whitespace, then `--manifest-path` and the build directory's
`Cargo.toml`. -/
def cargo_diagnostics_args (command_args : String) (destination_folder : String) :
    List String :=
  splitWhitespaceS command_args ++
    ["--manifest-path", pathJoin destination_folder "Cargo.toml"]

/-- The argument vector actually passed to the spawned `cargo` process
(`src/native.rs:163-164`): `command_args.split_whitespace()` again,
not the `args` vector built above. -/
def cargo_diagnostics_spawn_args (command_args : String) : List String :=
  splitWhitespaceS command_args

end Cargo

/-! ### Specification-side definitions

Definitions written from the specification's words rather than the
source, used to compare a claim's reading against the code. -/

namespace Spec

/-- A trim of a SINGLE trailing newline, as the specification's message
construction describes it (the code's `trim_end_matches('\n')` instead
removes every trailing newline). -/
def trimOneNl (s : List Char) : List Char :=
  if s.getLast? = some '\n' then s.dropLast else s

/-- Joining a group of lines with an embedded newline between
consecutive lines, as the specification describes record assembly. -/
def joinNl : List (List Char) → List Char
  | [] => []
  | [g] => g
  | g :: g' :: rest => g ++ '\n' :: joinNl (g' :: rest)

/-- The logical record one group of physical lines produces, per the
amended reading of the assembly loop: each line is right-trimmed, the
newline separator is skipped while the buffer is still empty (so a
group's leading blank lines vanish), and the remaining trimmed lines
are joined with `\n`. -/
def recordOfGroup (g : List (List Char)) : List Char :=
  joinNl ((g.map trimEnd).dropWhile List.isEmpty)

/-- Grouping of the physical lines of an export file: a new group
starts exactly at a line whose trimmed content starts with a severity
keyword; `cur` is the group being accumulated. -/
def groupsFrom (cur : List (List Char)) : List (List Char) → List (List (List Char))
  | [] => [cur]
  | l :: rest =>
    if Bacon.isNewDiagnostic (trimEnd l) then cur :: groupsFrom [l] rest
    else groupsFrom (cur ++ [l]) rest

/-- The logical records of an export file per the amended
specification: group the lines at severity-keyword markers, turn each
group into a record, and drop the records that stay empty (the code
never feeds an empty buffer to the parser). -/
def claimedRecords (lines : List (List Char)) : List (List Char) :=
  ((groupsFrom [] lines).map recordOfGroup).filter (fun r => !r.isEmpty)

end Spec

/-! ### Concrete instances of the external-library parameters

Used by the witnesses and counterexamples: a URL parser that accepts
every `file://` string and reads its path component off after the
scheme, an ANSI stripper that strips nothing (legal for ANSI-free
text), and canonicalizers that always fail respectively always
succeed. -/

/-- A concrete `Url::parse` oracle: always succeeds, the path component
is everything after `file://`. -/
def url0 (s : String) : Option Url := some ⟨s, String.mk (s.data.drop 7)⟩

/-- A concrete ANSI-stripping oracle: the identity (correct on text
with no escape sequences). -/
def ansi0 (s : String) : String := s

/-- A canonicalizer that fails on every path (the file vanished). -/
def canonNone (_ : String) : Option String := none

/-- A canonicalizer that succeeds and leaves the path unchanged. -/
def canonId (s : String) : Option String := some s

/-! ### Helper lemmas -/

/-- A successful `u32` parse is below `2 ^ 32`. -/
theorem parseU32_lt {s : String} {v : Nat} (h : parseU32 s = some v) : v < 2 ^ 32 := by
  simp only [parseU32] at h
  split_ifs at h <;> simp_all

/-- All four positions returned by `parse_positions` are below `2 ^ 32`. -/
theorem parse_positions_lt {ls le cs ce : String} {a b c d : Nat}
    (h : Bacon.parse_positions [ls, le, cs, ce] = some (a, b, c, d)) :
    a < 2 ^ 32 ∧ b < 2 ^ 32 ∧ c < 2 ^ 32 ∧ d < 2 ^ 32 := by
  simp only [Bacon.parse_positions, List.get?, Option.pure_def, Option.bind_eq_bind,
    Option.some_bind, Option.bind_eq_some, Option.some.injEq, Prod.mk.injEq] at h
  obtain ⟨va, hva, vb, hvb, vc, hvc, vd, hvd, ha, hb, hc, hd⟩ := h
  subst ha hb hc hd
  exact ⟨parseU32_lt hva, parseU32_lt hvb, parseU32_lt hvc, parseU32_lt hvd⟩

/-- Wrapping subtraction agrees with plain subtraction on positive
in-range values. -/
theorem u32sub1_eq {x : Nat} (h1 : 1 ≤ x) (h2 : x < 2 ^ 32) : u32sub1 x = x - 1 := by
  unfold u32sub1
  omega

/-- Evaluation of `parse_bacon_diagnostic_line` once the record splits
into its nine fields. -/
theorem parse_line_eval (urlParse : String → Option Url) (stripAnsi : String → String)
    (line folder_path sev fp ls le cs ce msg rendered repl : String)
    (hsplit : (splitnSep 9 Bacon.delim line.data).map String.mk
      = [sev, fp, ls, le, cs, ce, msg, rendered, repl]) :
    Bacon.parse_bacon_diagnostic_line urlParse stripAnsi line folder_path =
      match Bacon.parse_positions [ls, le, cs, ce] with
      | none => none
      | some (line_start, line_end, column_start, column_end) =>
        match urlParse ("file://" ++ pathJoin folder_path fp) with
        | none => none
        | some path =>
          some (path,
            { range := ⟨⟨u32sub1 line_start, u32sub1 column_start⟩,
                        ⟨u32sub1 line_end, u32sub1 column_end⟩⟩
              severity := some (Bacon.parse_severity sev)
              source := some PKG_NAME
              message :=
                if rendered ≠ "none" then String.mk (trimEndNl (stripAnsi rendered).data)
                else String.mk (trimEndNl (unescapeNewlines msg.data))
              data := if repl ≠ "none" then some ⟨[repl]⟩ else none }) := by
  simp only [Bacon.parse_bacon_diagnostic_line, hsplit]
  simp [List.getD]

/-- A record that does not split into nine fields is rejected. -/
theorem parse_line_short (urlParse : String → Option Url) (stripAnsi : String → String)
    (line folder_path : String)
    (hlen : ((splitnSep 9 Bacon.delim line.data).map String.mk).length ≠ 9) :
    Bacon.parse_bacon_diagnostic_line urlParse stripAnsi line folder_path = none := by
  simp only [Bacon.parse_bacon_diagnostic_line, if_neg hlen]

/-- A list of length nine is a nine-element literal. -/
theorem length_nine_decomp (l : List String) (h : l.length = 9) :
    ∃ a b c d e f g x i, l = [a, b, c, d, e, f, g, x, i] := by
  rcases l with _ | ⟨a, _ | ⟨b, _ | ⟨c, _ | ⟨d, _ | ⟨e, _ | ⟨f, _ | ⟨g, _ | ⟨x, _ | ⟨i, _ | ⟨j, t⟩⟩⟩⟩⟩⟩⟩⟩⟩⟩ <;>
    simp_all


/-! ### Claim C2 -/

/-- Claim C2 as stated is false: the parser uses `splitn(9, "|:|")`, so
a record with MORE than nine fields is not rejected — the extra fields
are folded into the ninth field and the record parses successfully.
Here a ten-field record yields `Some`. -/
theorem claim_c2_counterexample :
    (splitnSep 9 Bacon.delim
      "error|:|src/f.rs|:|1|:|2|:|3|:|4|:|m|:|none|:|none|:|extra".data).length = 9 ∧
    (Bacon.parse_bacon_diagnostic_line url0 ansi0
      "error|:|src/f.rs|:|1|:|2|:|3|:|4|:|m|:|none|:|none|:|extra" "/r").isSome = true := by
  decide

/-- Claim C2, amended: `parse_bacon_diagnostic_line` returns `None` iff
the delimiter splits the input into fewer than nine fields (more than
nine are folded into the ninth field, not rejected), or one of the four
position fields fails to parse as a `u32` (zero is accepted), or the
resolved path does not produce a document URI. -/
theorem claim_c2_theorem (urlParse : String → Option Url) (stripAnsi : String → String)
    (line folder_path : String) :
    Bacon.parse_bacon_diagnostic_line urlParse stripAnsi line folder_path = none ↔
      ∀ sev fp ls le cs ce msg rendered repl : String,
        (splitnSep 9 Bacon.delim line.data).map String.mk
          = [sev, fp, ls, le, cs, ce, msg, rendered, repl] →
        Bacon.parse_positions [ls, le, cs, ce] = none ∨
          urlParse ("file://" ++ pathJoin folder_path fp) = none := by
  constructor
  · intro hnone sev fp ls le cs ce msg rendered repl hsplit
    by_contra hcon
    push_neg at hcon
    obtain ⟨hpos, hurl⟩ := hcon
    obtain ⟨⟨a, b, c, d⟩, hpos'⟩ := Option.ne_none_iff_exists'.mp hpos
    obtain ⟨u, hurl'⟩ := Option.ne_none_iff_exists'.mp hurl
    have heval := parse_line_eval urlParse stripAnsi line folder_path
      sev fp ls le cs ce msg rendered repl hsplit
    simp only [hpos', hurl'] at heval
    rw [heval] at hnone
    cases hnone
  · intro hall
    by_cases hlen : ((splitnSep 9 Bacon.delim line.data).map String.mk).length = 9
    · obtain ⟨sev, fp, ls, le, cs, ce, msg, rendered, repl, hsplit⟩ :=
        length_nine_decomp _ hlen
      have heval := parse_line_eval urlParse stripAnsi line folder_path
        sev fp ls le cs ce msg rendered repl hsplit
      rcases hall sev fp ls le cs ce msg rendered repl hsplit with hpos | hurl
      · rw [heval, hpos]
      · cases hpos2 : Bacon.parse_positions [ls, le, cs, ce] with
        | none => rw [heval, hpos2]
        | some t =>
          obtain ⟨a, b, c, d⟩ := t
          rw [heval]
          simp only [hpos2, hurl]
    · exact parse_line_short urlParse stripAnsi line folder_path hlen

/-- Witness for claim C2: a record that does not split into nine fields
is rejected. -/
theorem claim_c2_witness :
    Bacon.parse_bacon_diagnostic_line url0 ansi0 "abc" "/r" = none :=
  (claim_c2_theorem url0 ansi0 "abc" "/r").mpr (by
    intro sev fp ls le cs ce msg rendered repl h
    have hl : ((splitnSep 9 Bacon.delim "abc".data).map String.mk).length = 1 := by decide
    rw [h] at hl
    simp at hl)

/-! ### Claim C3 -/

/-- Claim C3 is broken by the code: `"0"` parses successfully as a
`u32` (the parse rejects negatives but not zero), so the 1-based to
0-based translation `line_start - 1` underflows; in a release build it
wraps to `2 ^ 32 - 1 = 4294967295`, which is the line this record's
diagnostic reports (under an overflow-checking build the same
subtraction panics instead). -/
theorem claim_c3_theorem :
    parseU32 "0" = some 0 ∧
    u32sub1 0 = 4294967295 ∧
    (Bacon.parse_bacon_diagnostic_line url0 ansi0
        "warning|:|src/f.rs|:|0|:|1|:|1|:|1|:|m|:|none|:|none" "/r").map
      (fun p => p.2.range.start.line) = some 4294967295 := by
  refine ⟨by decide, by decide, by decide⟩

/-! ### Claim C5 -/

/-- Claim C5: for a well-formed nine-field record with positive
positions, the diagnostic's range is (line_start-1, column_start-1) to
(line_end-1, column_end-1), and the severity keyword table is exactly
warning→Warning; info, information, note, failure-note→Information;
hint, help→Hint; everything else (including error)→Error,
case-sensitively. -/
theorem claim_c5_theorem (urlParse : String → Option Url) (stripAnsi : String → String)
    (line folder_path sev fp ls le cs ce msg rendered repl : String)
    (a b c d : Nat) (u : Url)
    (hsplit : (splitnSep 9 Bacon.delim line.data).map String.mk
      = [sev, fp, ls, le, cs, ce, msg, rendered, repl])
    (hpos : Bacon.parse_positions [ls, le, cs, ce] = some (a, b, c, d))
    (ha : 1 ≤ a) (hb : 1 ≤ b) (hc : 1 ≤ c) (hd : 1 ≤ d)
    (hurl : urlParse ("file://" ++ pathJoin folder_path fp) = some u) :
    (∃ diag, Bacon.parse_bacon_diagnostic_line urlParse stripAnsi line folder_path
        = some (u, diag) ∧
      diag.range = ⟨⟨a - 1, c - 1⟩, ⟨b - 1, d - 1⟩⟩ ∧
      diag.severity = some (Bacon.parse_severity sev)) ∧
    Bacon.parse_severity "warning" = .WARNING ∧
    Bacon.parse_severity "info" = .INFORMATION ∧
    Bacon.parse_severity "information" = .INFORMATION ∧
    Bacon.parse_severity "note" = .INFORMATION ∧
    Bacon.parse_severity "failure-note" = .INFORMATION ∧
    Bacon.parse_severity "hint" = .HINT ∧
    Bacon.parse_severity "help" = .HINT ∧
    Bacon.parse_severity "error" = .ERROR ∧
    Bacon.parse_severity "Warning" = .ERROR ∧
    (∀ s, s ∉ (["warning", "info", "information", "note", "failure-note",
        "hint", "help"] : List String) → Bacon.parse_severity s = .ERROR) := by
  obtain ⟨hla, hlb, hlc, hld⟩ := parse_positions_lt hpos
  have heval := parse_line_eval urlParse stripAnsi line folder_path
    sev fp ls le cs ce msg rendered repl hsplit
  simp only [hpos, hurl] at heval
  refine ⟨⟨_, heval, ?_, rfl⟩, rfl, rfl, rfl, rfl, rfl, rfl, rfl, rfl, rfl, ?_⟩
  · rw [u32sub1_eq ha hla, u32sub1_eq hb hlb, u32sub1_eq hc hlc, u32sub1_eq hd hld]
  · intro s hs
    simp only [List.mem_cons, List.not_mem_nil, or_false] at hs
    push_neg at hs
    unfold Bacon.parse_severity
    split <;> simp_all

/-- Witness for claim C5 at a concrete record. -/
theorem claim_c5_witness :
    (∃ diag, Bacon.parse_bacon_diagnostic_line url0 ansi0
        "warning|:|src/f.rs|:|3|:|4|:|5|:|6|:|m|:|none|:|none" "/r"
        = some (⟨"file:///r/src/f.rs", "/r/src/f.rs"⟩, diag) ∧
      diag.range = ⟨⟨3 - 1, 5 - 1⟩, ⟨4 - 1, 6 - 1⟩⟩ ∧
      diag.severity = some (Bacon.parse_severity "warning")) ∧
    Bacon.parse_severity "warning" = .WARNING ∧
    Bacon.parse_severity "info" = .INFORMATION ∧
    Bacon.parse_severity "information" = .INFORMATION ∧
    Bacon.parse_severity "note" = .INFORMATION ∧
    Bacon.parse_severity "failure-note" = .INFORMATION ∧
    Bacon.parse_severity "hint" = .HINT ∧
    Bacon.parse_severity "help" = .HINT ∧
    Bacon.parse_severity "error" = .ERROR ∧
    Bacon.parse_severity "Warning" = .ERROR ∧
    (∀ s, s ∉ (["warning", "info", "information", "note", "failure-note",
        "hint", "help"] : List String) → Bacon.parse_severity s = .ERROR) :=
  claim_c5_theorem url0 ansi0
    "warning|:|src/f.rs|:|3|:|4|:|5|:|6|:|m|:|none|:|none" "/r"
    "warning" "src/f.rs" "3" "4" "5" "6" "m" "none" "none"
    3 4 5 6 ⟨"file:///r/src/f.rs", "/r/src/f.rs"⟩
    (by decide) (by decide) (by decide) (by decide) (by decide) (by decide) (by decide)

/-! ### Claim C8 -/

/-- Claim C8 as stated is false on the trailing-newline treatment: the
code's `trim_end_matches('\n')` removes EVERY trailing newline, not a
single one.  On a message field ending in two escaped newlines the code
produces `"m"`, while trimming a single trailing newline as the claim
describes would leave `"m\n"`. -/
theorem claim_c8_counterexample :
    (Bacon.parse_bacon_diagnostic_line url0 ansi0
        "warning|:|src/f.rs|:|1|:|1|:|1|:|1|:|m\\n\\n|:|none|:|none" "/r").map
      (fun p => p.2.message) = some "m" ∧
    String.mk (Spec.trimOneNl (unescapeNewlines "m\\n\\n".data)) = "m\n" := by
  refine ⟨by decide, by decide⟩

/-- Claim C8, amended: for a well-formed record the message starts from
the message field with literal backslash-n sequences un-escaped and ALL
trailing newlines trimmed; a rendered-message field other than the
sentinel `none` replaces it after ANSI stripping and trimming of ALL
trailing newlines; and the correction payload is exactly the
suggested-replacement field when that field is not `none`, absent
otherwise. -/
theorem claim_c8_theorem (urlParse : String → Option Url) (stripAnsi : String → String)
    (line folder_path sev fp ls le cs ce msg rendered repl : String)
    (a b c d : Nat) (u : Url)
    (hsplit : (splitnSep 9 Bacon.delim line.data).map String.mk
      = [sev, fp, ls, le, cs, ce, msg, rendered, repl])
    (hpos : Bacon.parse_positions [ls, le, cs, ce] = some (a, b, c, d))
    (hurl : urlParse ("file://" ++ pathJoin folder_path fp) = some u) :
    ∃ diag, Bacon.parse_bacon_diagnostic_line urlParse stripAnsi line folder_path
        = some (u, diag) ∧
      diag.message = (if rendered ≠ "none" then String.mk (trimEndNl (stripAnsi rendered).data)
                      else String.mk (trimEndNl (unescapeNewlines msg.data))) ∧
      diag.data = (if repl ≠ "none" then some ⟨[repl]⟩ else none) := by
  have heval := parse_line_eval urlParse stripAnsi line folder_path
    sev fp ls le cs ce msg rendered repl hsplit
  simp only [hpos, hurl] at heval
  exact ⟨_, heval, rfl, rfl⟩

/-- Witness for claim C8 at a concrete record carrying both a rendered
message and a suggested replacement. -/
theorem claim_c8_witness :
    ∃ diag, Bacon.parse_bacon_diagnostic_line url0 ansi0
        "help|:|src/f.rs|:|1|:|1|:|1|:|1|:|m|:|rendered text\\n|:|fix me" "/r"
        = some (⟨"file:///r/src/f.rs", "/r/src/f.rs"⟩, diag) ∧
      diag.message = (if ("rendered text\\n" : String) ≠ "none" then
                        String.mk (trimEndNl (ansi0 "rendered text\\n").data)
                      else String.mk (trimEndNl (unescapeNewlines "m".data))) ∧
      diag.data = (if ("fix me" : String) ≠ "none" then some ⟨["fix me"]⟩ else none) :=
  claim_c8_theorem url0 ansi0
    "help|:|src/f.rs|:|1|:|1|:|1|:|1|:|m|:|rendered text\\n|:|fix me" "/r"
    "help" "src/f.rs" "1" "1" "1" "1" "m" "rendered text\\n" "fix me"
    1 1 1 1 ⟨"file:///r/src/f.rs", "/r/src/f.rs"⟩
    (by decide) (by decide) (by decide)

/-! ### Claim C10 -/

/-- Claim C10: the two backends disagree on `failure-note` — the
compiler-JSON backend maps it to Warning (grouping it with `warning`),
the file-tailing backend maps it to Information; the rest of the
compiler-JSON table is info, information, note→Information; hint,
help→Hint; anything else→Error, case-sensitively. -/
theorem claim_c10_theorem :
    Cargo.parse_severity "failure-note" = .WARNING ∧
    Bacon.parse_severity "failure-note" = .INFORMATION ∧
    Cargo.parse_severity "failure-note" ≠ Bacon.parse_severity "failure-note" ∧
    Cargo.parse_severity "warning" = .WARNING ∧
    Cargo.parse_severity "info" = .INFORMATION ∧
    Cargo.parse_severity "information" = .INFORMATION ∧
    Cargo.parse_severity "note" = .INFORMATION ∧
    Cargo.parse_severity "hint" = .HINT ∧
    Cargo.parse_severity "help" = .HINT ∧
    Cargo.parse_severity "error" = .ERROR ∧
    (∀ s, s ∉ (["warning", "failure-note", "info", "information", "note",
        "hint", "help"] : List String) → Cargo.parse_severity s = .ERROR) := by
  refine ⟨rfl, rfl, by decide, rfl, rfl, rfl, rfl, rfl, rfl, rfl, ?_⟩
  intro s hs
  simp only [List.mem_cons, List.not_mem_nil, or_false] at hs
  push_neg at hs
  unfold Cargo.parse_severity
  split <;> simp_all

/-- Witness for claim C10, discharging the catch-all case at a concrete
keyword. -/
theorem claim_c10_witness : Cargo.parse_severity "fatal" = .ERROR :=
  claim_c10_theorem.2.2.2.2.2.2.2.2.2.2 "fatal" (by decide)

/-! ### Claim C6 -/

/-- Claim C6 is broken by the code: `cargo_diagnostics` builds (and
logs) an argument vector ending in `--manifest-path <dir>/Cargo.toml`,
but the spawned process receives `command_args.split_whitespace()`
again — the built vector is never passed, so no manifest-path argument
reaches the compiler invocation. -/
theorem claim_c6_theorem :
    Cargo.cargo_diagnostics_spawn_args "clippy --message-format json"
      = ["clippy", "--message-format", "json"] ∧
    Cargo.cargo_diagnostics_args "clippy --message-format json" "/build"
      = ["clippy", "--message-format", "json", "--manifest-path", "/build/Cargo.toml"] ∧
    "--manifest-path" ∉ Cargo.cargo_diagnostics_spawn_args "clippy --message-format json" ∧
    Cargo.cargo_diagnostics_spawn_args "clippy --message-format json" ≠
      Cargo.cargo_diagnostics_args "clippy --message-format json" "/build" := by
  refine ⟨by decide, by decide, by decide, by decide⟩

/-! ### Claim C7 -/

/-- Claim C7: adding through the deduplicator (here
`Bacon::deduplicate_diagnostics`, for a record addressed to the
requested document) is a no-op exactly when the document's list already
holds an entry with equal range, severity and message; otherwise it
appends, preserving first-seen order.  The correction payload takes no
part in duplicate identity: a second add whose range, severity and
message agree with the first is a no-op even when its `data` payload
differs. -/
theorem claim_c7_theorem (path uri : Url) (d d' : Diagnostic)
    (ds : List (Url × Diagnostic)) (hmatch : path = uri)
    (hr : d'.range = d.range) (hs : d'.severity = d.severity)
    (hm : d'.message = d.message) :
    ((∃ e ∈ ds, e.1.path = path.path ∧ d.range = e.2.range ∧
        d.severity = e.2.severity ∧ d.message = e.2.message) →
      Bacon.deduplicate_diagnostics path uri d ds = ds) ∧
    (¬ (∃ e ∈ ds, e.1.path = path.path ∧ d.range = e.2.range ∧
        d.severity = e.2.severity ∧ d.message = e.2.message) →
      Bacon.deduplicate_diagnostics path uri d ds = ds ++ [(path, d)]) ∧
    Bacon.deduplicate_diagnostics path uri d'
        (Bacon.deduplicate_diagnostics path uri d ds) =
      Bacon.deduplicate_diagnostics path uri d ds := by
  have hany : ∀ (x : Diagnostic) (l : List (Url × Diagnostic)),
      (l.any fun e => e.1.path == path.path && x.range == e.2.range &&
        x.severity == e.2.severity && x.message == e.2.message) = true ↔
      ∃ e ∈ l, e.1.path = path.path ∧ x.range = e.2.range ∧
        x.severity = e.2.severity ∧ x.message = e.2.message := by
    intro x l
    simp [List.any_eq_true, and_assoc]
  refine ⟨?_, ?_, ?_⟩
  · intro hdup
    unfold Bacon.deduplicate_diagnostics
    rw [if_neg]
    intro hcond
    exact hcond.2 ((hany d ds).mpr hdup)
  · intro hdup
    unfold Bacon.deduplicate_diagnostics
    rw [if_pos]
    exact ⟨hmatch, fun hc => hdup ((hany d ds).mp hc)⟩
  · by_cases hdup : ∃ e ∈ ds, e.1.path = path.path ∧ d.range = e.2.range ∧
        d.severity = e.2.severity ∧ d.message = e.2.message
    · have h1 : Bacon.deduplicate_diagnostics path uri d ds = ds := by
        unfold Bacon.deduplicate_diagnostics
        rw [if_neg]
        intro hcond
        exact hcond.2 ((hany d ds).mpr hdup)
      rw [h1]
      unfold Bacon.deduplicate_diagnostics
      rw [if_neg]
      intro hcond
      refine hcond.2 ((hany d' ds).mpr ?_)
      obtain ⟨e, hmem, h1', h2', h3', h4'⟩ := hdup
      exact ⟨e, hmem, h1', hr ▸ h2', hs ▸ h3', hm ▸ h4'⟩
    · have h1 : Bacon.deduplicate_diagnostics path uri d ds = ds ++ [(path, d)] := by
        unfold Bacon.deduplicate_diagnostics
        rw [if_pos]
        exact ⟨hmatch, fun hc => hdup ((hany d ds).mp hc)⟩
      rw [h1]
      unfold Bacon.deduplicate_diagnostics
      rw [if_neg]
      intro hcond
      have : ∃ e ∈ ds ++ [(path, d)], e.1.path = path.path ∧ d'.range = e.2.range ∧
          d'.severity = e.2.severity ∧ d'.message = e.2.message :=
        ⟨(path, d), by simp, rfl, hr, hs, hm⟩
      exact hcond.2 ((hany d' (ds ++ [(path, d)])).mpr this)

/-- Witness for claim C7: the same triple added twice with different
correction payloads stays a single entry. -/
theorem claim_c7_witness :
    ((∃ e ∈ ([] : List (Url × Diagnostic)),
        e.1.path = (Url.mk "file:///r/a.rs" "/r/a.rs").path ∧
        (Diagnostic.mk ⟨⟨0, 0⟩, ⟨0, 1⟩⟩ (some .ERROR) (some PKG_NAME) "boom" none).range
          = e.2.range ∧
        (Diagnostic.mk ⟨⟨0, 0⟩, ⟨0, 1⟩⟩ (some .ERROR) (some PKG_NAME) "boom" none).severity
          = e.2.severity ∧
        (Diagnostic.mk ⟨⟨0, 0⟩, ⟨0, 1⟩⟩ (some .ERROR) (some PKG_NAME) "boom" none).message
          = e.2.message) →
      Bacon.deduplicate_diagnostics (Url.mk "file:///r/a.rs" "/r/a.rs")
        (Url.mk "file:///r/a.rs" "/r/a.rs")
        (Diagnostic.mk ⟨⟨0, 0⟩, ⟨0, 1⟩⟩ (some .ERROR) (some PKG_NAME) "boom" none) [] = []) ∧
    (¬ (∃ e ∈ ([] : List (Url × Diagnostic)),
        e.1.path = (Url.mk "file:///r/a.rs" "/r/a.rs").path ∧
        (Diagnostic.mk ⟨⟨0, 0⟩, ⟨0, 1⟩⟩ (some .ERROR) (some PKG_NAME) "boom" none).range
          = e.2.range ∧
        (Diagnostic.mk ⟨⟨0, 0⟩, ⟨0, 1⟩⟩ (some .ERROR) (some PKG_NAME) "boom" none).severity
          = e.2.severity ∧
        (Diagnostic.mk ⟨⟨0, 0⟩, ⟨0, 1⟩⟩ (some .ERROR) (some PKG_NAME) "boom" none).message
          = e.2.message) →
      Bacon.deduplicate_diagnostics (Url.mk "file:///r/a.rs" "/r/a.rs")
        (Url.mk "file:///r/a.rs" "/r/a.rs")
        (Diagnostic.mk ⟨⟨0, 0⟩, ⟨0, 1⟩⟩ (some .ERROR) (some PKG_NAME) "boom" none) []
        = [] ++ [((Url.mk "file:///r/a.rs" "/r/a.rs"),
            Diagnostic.mk ⟨⟨0, 0⟩, ⟨0, 1⟩⟩ (some .ERROR) (some PKG_NAME) "boom" none)]) ∧
    Bacon.deduplicate_diagnostics (Url.mk "file:///r/a.rs" "/r/a.rs")
        (Url.mk "file:///r/a.rs" "/r/a.rs")
        (Diagnostic.mk ⟨⟨0, 0⟩, ⟨0, 1⟩⟩ (some .ERROR) (some PKG_NAME) "boom"
          (some ⟨["other fix"]⟩))
        (Bacon.deduplicate_diagnostics (Url.mk "file:///r/a.rs" "/r/a.rs")
          (Url.mk "file:///r/a.rs" "/r/a.rs")
          (Diagnostic.mk ⟨⟨0, 0⟩, ⟨0, 1⟩⟩ (some .ERROR) (some PKG_NAME) "boom" none) []) =
      Bacon.deduplicate_diagnostics (Url.mk "file:///r/a.rs" "/r/a.rs")
        (Url.mk "file:///r/a.rs" "/r/a.rs")
        (Diagnostic.mk ⟨⟨0, 0⟩, ⟨0, 1⟩⟩ (some .ERROR) (some PKG_NAME) "boom" none) [] :=
  claim_c7_theorem (Url.mk "file:///r/a.rs" "/r/a.rs") (Url.mk "file:///r/a.rs" "/r/a.rs")
    (Diagnostic.mk ⟨⟨0, 0⟩, ⟨0, 1⟩⟩ (some .ERROR) (some PKG_NAME) "boom" none)
    (Diagnostic.mk ⟨⟨0, 0⟩, ⟨0, 1⟩⟩ (some .ERROR) (some PKG_NAME) "boom"
      (some ⟨["other fix"]⟩))
    [] rfl rfl rfl rfl

/-! ### Claim C1 -/

/-- Claim C1 as stated is false: a single span whose path fails to
canonicalize does not merely lose its own diagnostic — the error
propagates through the `?` operator and the whole run returns an
error.  Here a one-span run with a failing canonicalizer returns
`Err`, not `Ok`. -/
theorem claim_c1_counterexample :
    Cargo.cargo_diagnostics canonNone url0 ansi0 "/cwd"
      [some (some ⟨"diagnostic", "boom", "error",
        [⟨some "", "/f.rs", 1, 1, 1, 1, none⟩], []⟩)]
      = Except.error "adding spans: canonicalizing uri: /f.rs" := rfl

/-- Claim C1, amended: a canonicalization failure for a span's path is
fatal to the run — `maybe_add_diagnostic` returns an error carrying the
`canonicalizing uri` context, and `cargo_diagnostics` propagates it
(wrapped in the `adding spans` context) as the result of the whole
pass, discarding the diagnostics of every other span. -/
theorem claim_c1_theorem (canon : String → Option String) (uriParse : String → Option Url)
    (stripAnsi : String → String) (current_dir h sev msg rendered level : String)
    (span : Cargo.CargoSpan) (stail : List Cargo.CargoSpan)
    (children : List Cargo.CargoChildren)
    (rest : List (Option (Option Cargo.CargoMessage))) (m : Cargo.DiagnosticsMap)
    (hhost : span.host = some h)
    (hcanon : canon (Cargo.span_uri current_dir h span) = none) :
    Cargo.maybe_add_diagnostic canon uriParse current_dir sev msg span m
      = Except.error ("canonicalizing uri: " ++ Cargo.span_uri current_dir h span) ∧
    Cargo.cargo_diagnostics canon uriParse stripAnsi current_dir
        (some (some ⟨"diagnostic", rendered, level, span :: stail, children⟩) :: rest)
      = Except.error ("adding spans: canonicalizing uri: "
          ++ Cargo.span_uri current_dir h span) := by
  have hmad : ∀ sev' msg' m',
      Cargo.maybe_add_diagnostic canon uriParse current_dir sev' msg' span m'
        = Except.error ("canonicalizing uri: " ++ Cargo.span_uri current_dir h span) := by
    intro sev' msg' m'
    unfold Cargo.maybe_add_diagnostic
    simp only [hhost, hcanon]
  refine ⟨hmad sev msg m, ?_⟩
  unfold Cargo.cargo_diagnostics Cargo.processStdout
  simp only [if_pos rfl]
  unfold Cargo.addSpans
  simp only [hmad, if_true]
  rfl

/-- Witness for claim C1 at a concrete one-span stream. -/
theorem claim_c1_witness :
    Cargo.maybe_add_diagnostic canonNone url0 "/cwd" "error" "x"
        ⟨some "", "/f.rs", 1, 1, 1, 1, none⟩ []
      = Except.error ("canonicalizing uri: "
          ++ Cargo.span_uri "/cwd" "" ⟨some "", "/f.rs", 1, 1, 1, 1, none⟩) ∧
    Cargo.cargo_diagnostics canonNone url0 ansi0 "/cwd"
        (some (some ⟨"diagnostic", "rend", "error",
          ⟨some "", "/f.rs", 1, 1, 1, 1, none⟩ :: [], []⟩) :: [])
      = Except.error ("adding spans: canonicalizing uri: "
          ++ Cargo.span_uri "/cwd" "" ⟨some "", "/f.rs", 1, 1, 1, 1, none⟩) :=
  claim_c1_theorem canonNone url0 ansi0 "/cwd" "" "error" "x" "rend" "error"
    ⟨some "", "/f.rs", 1, 1, 1, 1, none⟩ [] [] [] [] rfl rfl

/-! ### Claim C4 -/

/-- With no document filter (`uri = None`), `Some(&path) == uri` is
false for every record, so `deduplicate_diagnostics` never pushes. -/
theorem deduplicate_diagnostics_none (path : Url) (d : Diagnostic)
    (ds : List (Url × Diagnostic)) :
    BaconLs.deduplicate_diagnostics path none d ds = ds := by
  unfold BaconLs.deduplicate_diagnostics
  rw [if_neg]
  intro hcond
  exact Option.some_ne_none path hcond.1

/-- A member of the deduplicated list is an old member or the freshly
pushed pair, and a push happens only when the record's document equals
the filter. -/
theorem deduplicate_diagnostics_mem {p : Url × Diagnostic} (path : Url) (uri : Option Url)
    (d : Diagnostic) (ds : List (Url × Diagnostic))
    (hp : p ∈ BaconLs.deduplicate_diagnostics path uri d ds) :
    p ∈ ds ∨ (some path = uri ∧ p = (path, d)) := by
  unfold BaconLs.deduplicate_diagnostics at hp
  split_ifs at hp with hcond
  · rcases List.mem_append.mp hp with hmem | hmem
    · exact Or.inl hmem
    · exact Or.inr ⟨hcond.1, List.mem_singleton.mp hmem⟩
  · exact Or.inl hp

/-- Folding the read pass over any record list preserves the invariant
that every accumulated pair is addressed to the filtered document. -/
theorem readfold_mem (urlParse : String → Option Url) (stripAnsi : String → String)
    (folder_path : String) (u : Url) :
    ∀ (recs : List (List Char)) (acc : List (Url × Diagnostic)),
      (∀ p ∈ acc, p.1 = u) →
      ∀ p ∈ recs.foldl
        (fun diagnostics rec =>
          match Bacon.parse_bacon_diagnostic_line urlParse stripAnsi (String.mk rec)
              folder_path with
          | some (path, diagnostic) =>
            BaconLs.deduplicate_diagnostics path (some u) diagnostic diagnostics
          | none => diagnostics) acc, p.1 = u := by
  intro recs
  induction recs with
  | nil => intro acc hacc p hp; exact hacc p hp
  | cons rec rest ih =>
    intro acc hacc p hp
    rw [List.foldl_cons] at hp
    refine ih _ ?_ p hp
    intro q hq
    have hq' : q ∈ (match Bacon.parse_bacon_diagnostic_line urlParse stripAnsi
        (String.mk rec) folder_path with
      | some (path, diagnostic) =>
        BaconLs.deduplicate_diagnostics path (some u) diagnostic acc
      | none => acc) := hq
    cases hparse : Bacon.parse_bacon_diagnostic_line urlParse stripAnsi (String.mk rec)
        folder_path with
    | none =>
      rw [hparse] at hq'
      exact hacc q hq'
    | some pd =>
      rw [hparse] at hq'
      obtain ⟨pu, pdg⟩ := pd
      rcases deduplicate_diagnostics_mem pu (some u) pdg acc hq' with hmem | ⟨heq, rfl⟩
      · exact hacc q hmem
      · exact Option.some_injective _ heq

/-- Folding the read pass with an absent filter never accumulates
anything beyond what it started with. -/
theorem readfold_none (urlParse : String → Option Url) (stripAnsi : String → String)
    (folder_path : String) :
    ∀ (recs : List (List Char)) (acc : List (Url × Diagnostic)),
      recs.foldl
        (fun diagnostics rec =>
          match Bacon.parse_bacon_diagnostic_line urlParse stripAnsi (String.mk rec)
              folder_path with
          | some (path, diagnostic) =>
            BaconLs.deduplicate_diagnostics path none diagnostic diagnostics
          | none => diagnostics) acc = acc := by
  have hstep : ∀ (acc : List (Url × Diagnostic)) (r : List Char),
      (match Bacon.parse_bacon_diagnostic_line urlParse stripAnsi (String.mk r)
          folder_path with
        | some (path, diagnostic) =>
          BaconLs.deduplicate_diagnostics path none diagnostic acc
        | none => acc) = acc := by
    intro acc r
    cases hparse : Bacon.parse_bacon_diagnostic_line urlParse stripAnsi (String.mk r)
        folder_path with
    | none => rfl
    | some pd =>
      obtain ⟨pu, pdg⟩ := pd
      exact deduplicate_diagnostics_none pu pdg acc
  have hfun : (fun (diagnostics : List (Url × Diagnostic)) (rec : List Char) =>
      match Bacon.parse_bacon_diagnostic_line urlParse stripAnsi (String.mk rec)
          folder_path with
        | some (path, diagnostic) =>
          BaconLs.deduplicate_diagnostics path none diagnostic diagnostics
        | none => diagnostics)
      = fun diagnostics _ => diagnostics := by
    funext diagnostics rec
    exact hstep diagnostics rec
  intro recs acc
  rw [hfun]
  induction recs generalizing acc with
  | nil => rfl
  | cons r rest ih =>
    rw [List.foldl_cons]
    exact ih acc

/-- Claim C4 as stated is false for the filter-absent direction: with
`uri = None` the read pass discards every record, returning the empty
list even though the file holds a perfectly parseable record. -/
theorem claim_c4_counterexample :
    BaconLs.readPass url0 ansi0 none "/r"
        ["error|:|src/f.rs|:|1|:|2|:|3|:|4|:|m|:|none|:|none".data] = [] ∧
    (Bacon.parse_bacon_diagnostic_line url0 ansi0
      "error|:|src/f.rs|:|1|:|2|:|3|:|4|:|m|:|none|:|none" "/r").isSome = true := by
  refine ⟨by decide, by decide⟩

/-- Claim C4, amended: when a document filter is provided every pair in
the result resolves to that document; when the filter is absent, every
record is discarded and the read pass returns the empty list. -/
theorem claim_c4_theorem (urlParse : String → Option Url) (stripAnsi : String → String)
    (folder_path : String) (lines : List (List Char)) (u : Url) :
    (∀ p ∈ BaconLs.readPass urlParse stripAnsi (some u) folder_path lines, p.1 = u) ∧
    BaconLs.readPass urlParse stripAnsi none folder_path lines = [] := by
  constructor
  · intro p hp
    exact readfold_mem urlParse stripAnsi folder_path u (Bacon.assembleRecords lines) []
      (by intro q hq; cases hq) p hp
  · exact readfold_none urlParse stripAnsi folder_path (Bacon.assembleRecords lines) []

/-- Witness for claim C4 at a concrete one-record file. -/
theorem claim_c4_witness :
    (⟨⟨"file:///r/src/f.rs", "/r/src/f.rs"⟩, Diagnostic.mk ⟨⟨0, 2⟩, ⟨1, 3⟩⟩
        (some .ERROR) (some PKG_NAME) "m" none⟩ : Url × Diagnostic) ∈
      BaconLs.readPass url0 ansi0 (some ⟨"file:///r/src/f.rs", "/r/src/f.rs"⟩) "/r"
        ["error|:|src/f.rs|:|1|:|2|:|3|:|4|:|m|:|none|:|none".data] ∧
    (⟨⟨"file:///r/src/f.rs", "/r/src/f.rs"⟩, Diagnostic.mk ⟨⟨0, 2⟩, ⟨1, 3⟩⟩
        (some .ERROR) (some PKG_NAME) "m" none⟩ : Url × Diagnostic).1
      = ⟨"file:///r/src/f.rs", "/r/src/f.rs"⟩ ∧
    BaconLs.readPass url0 ansi0 none "/r"
      ["error|:|src/f.rs|:|1|:|2|:|3|:|4|:|m|:|none|:|none".data] = [] :=
  ⟨by decide,
   (claim_c4_theorem url0 ansi0 "/r"
      ["error|:|src/f.rs|:|1|:|2|:|3|:|4|:|m|:|none|:|none".data]
      ⟨"file:///r/src/f.rs", "/r/src/f.rs"⟩).1 _ (by decide),
   (claim_c4_theorem url0 ansi0 "/r"
      ["error|:|src/f.rs|:|1|:|2|:|3|:|4|:|m|:|none|:|none".data]
      ⟨"file:///r/src/f.rs", "/r/src/f.rs"⟩).2⟩

/-! ### Claim C9 -/

/-- Joining a group with one more line appended at the end. -/
theorem joinNl_append_single (ys : List (List Char)) (y t : List Char) :
    Spec.joinNl (y :: (ys ++ [t])) = Spec.joinNl (y :: ys) ++ '\n' :: t := by
  induction ys generalizing y with
  | nil => rfl
  | cons z zs ih =>
    simp only [List.cons_append, Spec.joinNl, List.append_eq]
    rw [ih]
    simp [List.append_assoc]

/-- A joined group whose first line is nonempty is nonempty. -/
theorem joinNl_isEmpty_false {x : List Char} (xs : List (List Char))
    (hx : x.isEmpty = false) : (Spec.joinNl (x :: xs)).isEmpty = false := by
  cases xs with
  | nil => exact hx
  | cons y ys =>
    simp only [Spec.joinNl]
    cases x with
    | nil => simp at hx
    | cons c cs => rfl

/-- How one more line extends a group's record: skip the newline
separator while the record is still empty, otherwise join with a
newline — exactly the buffer-extension step of the read loop. -/
theorem recordOfGroup_append (cur : List (List Char)) (l : List Char) :
    Spec.recordOfGroup (cur ++ [l]) =
      if (Spec.recordOfGroup cur).isEmpty then trimEnd l
      else Spec.recordOfGroup cur ++ '\n' :: trimEnd l := by
  unfold Spec.recordOfGroup
  rw [List.map_append, List.map_singleton, List.dropWhile_append]
  cases hdw : List.dropWhile List.isEmpty (cur.map trimEnd) with
  | nil =>
    simp only [List.isEmpty_nil, if_true, Spec.joinNl]
    cases ht : (trimEnd l).isEmpty with
    | true =>
      rw [List.isEmpty_iff] at ht
      simp [List.dropWhile, ht, Spec.joinNl]
    | false =>
      simp [List.dropWhile, ht, Spec.joinNl]
  | cons x xs =>
    have hx : x.isEmpty = false := by
      have hh := List.head?_dropWhile_not List.isEmpty (cur.map trimEnd)
      rw [hdw] at hh
      exact hh
    simp only [List.isEmpty_cons, if_false, Bool.false_eq_true]
    rw [List.cons_append, joinNl_append_single]
    rw [if_neg]
    simp [joinNl_isEmpty_false xs hx]

/-- A line opening a new record is nonempty after trimming. -/
theorem isNewDiagnostic_ne_nil {t : List Char}
    (h : Bacon.isNewDiagnostic t = true) : t.isEmpty = false := by
  cases t with
  | nil => exact absurd h (by decide)
  | cons c cs => rfl

/-- A group consisting of one marker line produces that trimmed line
as its record. -/
theorem recordOfGroup_single {l : List Char}
    (h : Bacon.isNewDiagnostic (trimEnd l) = true) :
    Spec.recordOfGroup [l] = trimEnd l := by
  unfold Spec.recordOfGroup
  simp [List.dropWhile, isNewDiagnostic_ne_nil h, Spec.joinNl]

/-- The read loop starting from the record of a partially accumulated
group produces exactly the nonempty records of the remaining groups. -/
theorem processLines_eq (lines : List (List Char)) :
    ∀ cur : List (List Char),
      Bacon.processLines lines (Spec.recordOfGroup cur) =
        ((Spec.groupsFrom cur lines).map Spec.recordOfGroup).filter
          (fun r => !r.isEmpty) := by
  induction lines with
  | nil =>
    intro cur
    unfold Bacon.processLines Spec.groupsFrom
    cases hb : (Spec.recordOfGroup cur).isEmpty <;>
      simp [List.filter, hb]
  | cons l rest ih =>
    intro cur
    unfold Bacon.processLines Spec.groupsFrom
    cases hnew : Bacon.isNewDiagnostic (trimEnd l) with
    | true =>
      simp only [hnew, Bool.true_and, if_true, List.isEmpty_nil, List.map_cons,
        List.filter_cons]
      rw [← recordOfGroup_single hnew, ih [l]]
      cases hb : (Spec.recordOfGroup cur).isEmpty <;> simp [hb]
    | false =>
      simp only [hnew, Bool.false_and, if_false, Bool.false_eq_true]
      rw [← recordOfGroup_append cur l, ih (cur ++ [l])]
      simp

/-- Claim C9 as stated is false on the continuation-line text: physical
lines are right-trimmed before they are appended to the buffer, so a
continuation line `"x "` contributes `"x"` to the logical record, while
joining the raw lines with a newline as the claim describes would keep
the trailing space. -/
theorem claim_c9_counterexample :
    Bacon.assembleRecords ["warning a".data, "x ".data] = ["warning a\nx".data] ∧
    Spec.joinNl ["warning a".data, "x ".data] = "warning a\nx ".data ∧
    "warning a\nx".data ≠ "warning a\nx ".data := by
  refine ⟨by decide, by decide, by decide⟩

/-- Claim C9, amended: a new logical record begins exactly at a line
whose trimmed content starts with a severity keyword; the record fed to
the parser is the lines of the group each right-trimmed and joined with
`\n` (the separator being skipped while the buffer is empty, so leading
blank lines of a group vanish); the final buffer is flushed at end of
file; and empty buffers are never fed to the parser. -/
theorem claim_c9_theorem (lines : List (List Char)) :
    Bacon.assembleRecords lines = Spec.claimedRecords lines :=
  processLines_eq lines []

end BaconLsModel
